import Mathlib

/-!
Verification of the Risk-Gated Multi-Account Order Replication Engine
(`mt5_risk_manager.py` and `mt5_replicator.py`).

The Python source is shallowly embedded: floating-point arithmetic is
modelled by exact rational arithmetic (`ℚ`), dictionaries by association
lists, and the MetaTrader gateway (`mt5.*` calls) by explicit input
parameters holding the values those calls would return.  Every embedded
definition mirrors the corresponding Python function; deviations forced
by the model (e.g. Python float vs `ℚ`) are noted in doc comments.
-/

namespace ForexTap

/-! ## Risk manager: account snapshot (`MT5RiskManager.update_account_info`)

The Python code converts `mt5.account_info()` into a dict and then computes
`drawdown_percent`:

```
if self.account_info["balance"] > 0:
    self.account_info["drawdown_percent"] =
        (1 - self.account_info["equity"] / self.account_info["balance"]) * 100
else:
    self.account_info["drawdown_percent"] = 0
```
-/

/-- `drawdown_percent` as computed by `update_account_info`
(`mt5_risk_manager.py` lines 254-258), as a function of the balance and
equity reported by the gateway. -/
def drawdown_percent (balance equity : ℚ) : ℚ :=
  if balance > 0 then (1 - equity / balance) * 100 else 0

/-- The drawdown formula the specification states: `max(0, 1 − equity/balance) × 100`. -/
def spec_drawdown_percent (balance equity : ℚ) : ℚ :=
  if balance > 0 then max 0 (1 - equity / balance) * 100 else 0

/-! ## Risk manager: position sizing (`MT5RiskManager.calculate_position_size`)

Symbol metadata returned by `mt5.symbol_info(symbol)`. -/

structure SymbolInfo where
  volume_min : ℚ
  volume_max : ℚ
  volume_step : ℚ
  point : ℚ
  digits : ℤ
  trade_tick_value : ℚ
  trade_contract_size : ℚ
deriving Repr, DecidableEq

/-- `np.round` rounds half to even (banker's rounding); this mirrors that
contract on rationals. -/
def roundHalfEven (q : ℚ) : ℤ :=
  if q - (⌊q⌋ : ℚ) < 1/2 then ⌊q⌋
  else if 1/2 < q - (⌊q⌋ : ℚ) then ⌊q⌋ + 1
  else if Even ⌊q⌋ then ⌊q⌋ else ⌊q⌋ + 1

/-- The three rounding policies of `position_size_rounding`. -/
inductive Rounding where
  | up
  | down
  | nearest
deriving Repr, DecidableEq

/-- The `np.ceil/np.floor/np.round` step of `calculate_position_size`
(lines 929-936): `volume = rnd(volume / volume_step) * volume_step`. -/
def roundToStep (r : Rounding) (step v : ℚ) : ℚ :=
  match r with
  | .up => (⌈v / step⌉ : ℤ) * step
  | .down => (⌊v / step⌋ : ℤ) * step
  | .nearest => (roundHalfEven (v / step) : ℚ) * step

/-! ### Position sizing inputs

`AccountInfo` holds the fields of the account snapshot that the sizing
methods read.  `Tick` is the last tick from `mt5.symbol_info_tick`.
`Trade` is one entry of `self.trade_history`, with `close_time` as an
integer timestamp (only its ordering matters). -/

structure AccountInfo where
  balance : ℚ
  equity : ℚ
deriving Repr, DecidableEq

structure Tick where
  ask : ℚ
  bid : ℚ
deriving Repr, DecidableEq

structure Trade where
  symbol : String
  profit : ℚ
  volume : ℚ
  close_time : ℤ
deriving Repr, DecidableEq

/-- The seven position-sizing methods of `position_sizing_models`. -/
inductive SizingMethod where
  | fixed
  | risk
  | equity
  | kelly
  | martingale
  | anti_martingale
  | volatility
deriving Repr, DecidableEq

/-- The `position_sizing` section of the risk-manager configuration. -/
structure PositionSizingConfig where
  method : SizingMethod
  fixed_lot_size : ℚ
  risk_percent : ℚ
  equity_percent : ℚ
  kelly_fraction : ℚ
  martingale_factor : ℚ
  anti_martingale_factor : ℚ
  volatility_factor : ℚ
  position_size_rounding : Rounding
deriving Repr, DecidableEq

/-- The `recovery_mode` fields read by `calculate_position_size`. -/
structure RecoveryConfig where
  enabled : Bool
  risk_reduction_percent : ℚ
deriving Repr, DecidableEq

/-- Gateway-supplied inputs of one `calculate_position_size` call.
`account` is the post-`update_account_info` snapshot (`none` when the
gateway call failed), `atr_pips` the ATR of the daily rates in pips
(`none` when `copy_rates_from_pos` returned insufficient data),
`trading_allowed` the result of `check_trading_allowed(symbol)` and
`recovery_active` the result of `_check_recovery_mode()`. -/
structure SizingEnv where
  account : Option AccountInfo
  symbol_info : Option SymbolInfo
  tick : Option Tick
  history : List Trade
  atr_pips : Option ℚ
  trading_allowed : Bool
  recovery_active : Bool
  stop_loss_pips : ℚ
deriving Repr, DecidableEq

/-- `pip_value = symbol_info.trade_tick_value * (10 ** (symbol_info.digits - 4))`. -/
def pipValue (si : SymbolInfo) : ℚ :=
  si.trade_tick_value * (10 : ℚ) ^ (si.digits - 4)

/-- `sorted(symbol_trades, key=lambda x: x["close_time"], reverse=True)[0]`:
the first trade (in original order, since Python's sort is stable) with
maximal close time. -/
def lastTradeBy (ts : List Trade) : Option Trade :=
  ts.foldl
    (fun acc t =>
      match acc with
      | none => some t
      | some m => if t.close_time > m.close_time then some t else some m)
    none

/-- `MT5RiskManager._fixed_position_size`. -/
def fixedPositionSize (cfg : PositionSizingConfig) : ℚ :=
  cfg.fixed_lot_size

/-- `MT5RiskManager._risk_based_position_size`. -/
def riskBasedPositionSize (cfg : PositionSizingConfig) (env : SizingEnv)
    (slPips : ℚ) : ℚ :=
  match env.account, env.symbol_info with
  | some acct, some si =>
      let risk_amount := acct.balance * (cfg.risk_percent / 100)
      let pip_value := pipValue si
      if slPips > 0 ∧ pip_value > 0 then risk_amount / (slPips * pip_value)
      else cfg.fixed_lot_size
  | _, _ => cfg.fixed_lot_size

/-- `MT5RiskManager._equity_based_position_size`. -/
def equityBasedPositionSize (cfg : PositionSizingConfig) (env : SizingEnv)
    (action : String) : ℚ :=
  match env.account, env.symbol_info, env.tick with
  | some acct, some si, some tick =>
      let price := if action = "BUY" then tick.ask else tick.bid
      let position_value := acct.equity * (cfg.equity_percent / 100)
      if price > 0 then position_value / (price * si.trade_contract_size)
      else cfg.fixed_lot_size
  | _, _, _ => cfg.fixed_lot_size

/-- `MT5RiskManager._kelly_criterion_position_size`. -/
def kellyPositionSize (cfg : PositionSizingConfig) (env : SizingEnv)
    (slPips : ℚ) : ℚ :=
  if env.history.length < 10 then riskBasedPositionSize cfg env slPips
  else
    let wins := (env.history.filter (fun t => t.profit > 0)).length
    let total := env.history.length
    let win_rate : ℚ := if total > 0 then (wins : ℚ) / (total : ℚ) else 1/2
    let posProfits := (env.history.filter (fun t => t.profit > 0)).map Trade.profit
    let negProfits := (env.history.filter (fun t => t.profit ≤ 0)).map (fun t => |t.profit|)
    let avg_win : ℚ := if 0 < wins then posProfits.sum / (posProfits.length : ℚ) else 1
    let avg_loss : ℚ := if 0 < total - wins then negProfits.sum / (negProfits.length : ℚ) else 1
    let odds : ℚ := if 0 < avg_loss then avg_win / avg_loss else 1
    let kelly : ℚ := max 0 ((win_rate - (1 - win_rate) / odds) * cfg.kelly_fraction)
    match env.account, env.symbol_info with
    | some acct, some si =>
        let risk_amount := acct.balance * kelly
        let pip_value := pipValue si
        if slPips > 0 ∧ pip_value > 0 then risk_amount / (slPips * pip_value)
        else cfg.fixed_lot_size
    | _, _ => cfg.fixed_lot_size

/-- `MT5RiskManager._martingale_position_size`. -/
def martingalePositionSize (cfg : PositionSizingConfig) (env : SizingEnv)
    (symbol : String) : ℚ :=
  if env.history.isEmpty then cfg.fixed_lot_size
  else
    match lastTradeBy (env.history.filter (fun t => t.symbol = symbol)) with
    | none => cfg.fixed_lot_size
    | some last =>
        if last.profit ≤ 0 then last.volume * cfg.martingale_factor
        else cfg.fixed_lot_size

/-- `MT5RiskManager._anti_martingale_position_size`. -/
def antiMartingalePositionSize (cfg : PositionSizingConfig) (env : SizingEnv)
    (symbol : String) : ℚ :=
  if env.history.isEmpty then cfg.fixed_lot_size
  else
    match lastTradeBy (env.history.filter (fun t => t.symbol = symbol)) with
    | none => cfg.fixed_lot_size
    | some last =>
        if last.profit > 0 then last.volume * cfg.anti_martingale_factor
        else cfg.fixed_lot_size

/-- `MT5RiskManager._volatility_based_position_size`. -/
def volatilityPositionSize (cfg : PositionSizingConfig) (env : SizingEnv)
    (slPips : ℚ) : ℚ :=
  match env.account with
  | none => cfg.fixed_lot_size
  | some acct =>
      match env.atr_pips with
      | none => riskBasedPositionSize cfg env slPips
      | some atr_pips =>
          match env.symbol_info with
          | none => cfg.fixed_lot_size
          | some si =>
              let risk_amount := acct.balance * (cfg.risk_percent / 100)
              let pip_value := pipValue si
              if atr_pips > 0 ∧ pip_value > 0 then
                risk_amount / (atr_pips * cfg.volatility_factor * pip_value)
              else cfg.fixed_lot_size

/-- Raw (pre-clamp) volume of the dispatched sizing method. -/
def methodVolume (cfg : PositionSizingConfig) (env : SizingEnv)
    (symbol action : String) : ℚ :=
  match cfg.method with
  | .fixed => fixedPositionSize cfg
  | .risk => riskBasedPositionSize cfg env env.stop_loss_pips
  | .equity => equityBasedPositionSize cfg env action
  | .kelly => kellyPositionSize cfg env env.stop_loss_pips
  | .martingale => martingalePositionSize cfg env symbol
  | .anti_martingale => antiMartingalePositionSize cfg env symbol
  | .volatility => volatilityPositionSize cfg env env.stop_loss_pips

/-- `MT5RiskManager.calculate_position_size` (lines 887-943): gate on
`check_trading_allowed`, dispatch the configured method, scale by the
Recovery-Mode reduction, clamp to `[volume_min, volume_max]` and round to
`volume_step` by the configured policy.  Returns `0` when trading is not
allowed or the symbol info is unavailable, as the source does. -/
def calculate_position_size (cfg : PositionSizingConfig) (rcfg : RecoveryConfig)
    (env : SizingEnv) (symbol action : String) : ℚ :=
  if ¬ env.trading_allowed then 0
  else
    let risk_reduction : ℚ :=
      if rcfg.enabled ∧ env.recovery_active then 1 - rcfg.risk_reduction_percent / 100 else 1
    let volume := methodVolume cfg env symbol action * risk_reduction
    match env.symbol_info with
    | none => 0
    | some si =>
        let volume := max volume si.volume_min
        let volume := min volume si.volume_max
        roundToStep cfg.position_size_rounding si.volume_step volume

/-- Concrete symbol metadata used in the C2 witness. -/
def c2si : SymbolInfo :=
  { volume_min := 1/100, volume_max := 100, volume_step := 1/100,
    point := 1/10000, digits := 5, trade_tick_value := 1,
    trade_contract_size := 100000 }

/-- Concrete sizing configuration used in the C2 witness. -/
def c2cfg : PositionSizingConfig :=
  { method := .risk, fixed_lot_size := 1/100, risk_percent := 1,
    equity_percent := 2, kelly_fraction := 1/2, martingale_factor := 2,
    anti_martingale_factor := 3/2, volatility_factor := 1,
    position_size_rounding := .down }

/-- Concrete sizing environment used in the C2 witness. -/
def c2env : SizingEnv :=
  { account := some { balance := 10000, equity := 10000 },
    symbol_info := some c2si, tick := none, history := [],
    atr_pips := none, trading_allowed := true, recovery_active := false,
    stop_loss_pips := 20 }

/-! ## Risk limit evaluation (`MT5RiskManager.check_risk_limits`) -/

/-- The `risk_limits` configuration fields read by `check_risk_limits`. -/
structure RiskLimitsConfig where
  max_daily_loss_percent : ℚ
  max_weekly_loss_percent : ℚ
  max_monthly_loss_percent : ℚ
  max_drawdown_percent : ℚ
  max_open_positions : ℕ
  max_positions_per_symbol : ℕ
deriving Repr, DecidableEq

/-- The `self.risk_limits` dict rebuilt by `check_risk_limits`;
`max_risk_per_symbol_reached` holds the symbols flagged `True`. -/
structure RiskLimits where
  daily_loss_reached : Bool
  weekly_loss_reached : Bool
  monthly_loss_reached : Bool
  max_positions_reached : Bool
  max_drawdown_reached : Bool
  max_risk_per_trade_reached : Bool
  max_risk_per_symbol_reached : List String
  correlation_risk_high : Bool
deriving Repr, DecidableEq

/-- Gateway-derived inputs of one `check_risk_limits` evaluation:
the refreshed account snapshot, the symbols of the open positions (one
entry per open position), the net profits recorded for today / the
current ISO week / the current month when those statistics exist, and
the result of `_check_correlation_risk()` (which depends on price data
from the gateway). -/
structure RiskCheckEnv where
  account : Option AccountInfo
  positions : List String
  daily_profit : Option ℚ
  weekly_profit : Option ℚ
  monthly_profit : Option ℚ
  correlation_high : Bool
deriving Repr, DecidableEq

/-- `MT5RiskManager.check_risk_limits` (lines 437-552), after the
`update_account_info` / `update_positions` refresh: resets the limit
flags and runs the seven checks in order, each setting its flag and
clearing `all_ok`; returns the rebuilt flags and `all_ok`. -/
def check_risk_limits (cfg : RiskLimitsConfig) (corrEnabled : Bool)
    (env : RiskCheckEnv) : RiskLimits × Bool :=
  -- reset limits, all_ok = True
  let all_ok := true
  -- 1. drawdown: flag set and all_ok cleared when the current drawdown
  -- exceeds the configured maximum
  let dd : Bool :=
    match env.account with
    | some acct =>
        decide (drawdown_percent acct.balance acct.equity > cfg.max_drawdown_percent)
    | none => false
  let all_ok := if dd then false else all_ok
  -- 2. max open positions
  let maxpos : Bool := decide (cfg.max_open_positions ≤ env.positions.length)
  let all_ok := if maxpos then false else all_ok
  -- 3. daily loss
  let daily : Bool :=
    match env.daily_profit, env.account with
    | some p, some acct =>
        decide (p < 0 ∧ |p| / acct.balance * 100 > cfg.max_daily_loss_percent)
    | _, _ => false
  let all_ok := if daily then false else all_ok
  -- 4. weekly loss
  let weekly : Bool :=
    match env.weekly_profit, env.account with
    | some p, some acct =>
        decide (p < 0 ∧ |p| / acct.balance * 100 > cfg.max_weekly_loss_percent)
    | _, _ => false
  let all_ok := if weekly then false else all_ok
  -- 5. monthly loss
  let monthly : Bool :=
    match env.monthly_profit, env.account with
    | some p, some acct =>
        decide (p < 0 ∧ |p| / acct.balance * 100 > cfg.max_monthly_loss_percent)
    | _, _ => false
  let all_ok := if monthly then false else all_ok
  -- 6. positions per symbol: one flag per breaching symbol; all_ok
  -- cleared when any symbol breaches
  let breached :=
    env.positions.dedup.filter
      (fun sym => cfg.max_positions_per_symbol ≤ env.positions.count sym)
  let all_ok := if breached.isEmpty then all_ok else false
  -- 7. correlation risk (only when the check is enabled)
  let corr : Bool := corrEnabled && env.correlation_high
  let all_ok := if corr then false else all_ok
  (⟨daily, weekly, monthly, maxpos, dd, false, breached, corr⟩, all_ok)

/-- Check 1 of `check_risk_limits` in isolation. -/
def drawdownBreach (cfg : RiskLimitsConfig) (env : RiskCheckEnv) : Bool :=
  match env.account with
  | some acct =>
      decide (drawdown_percent acct.balance acct.equity > cfg.max_drawdown_percent)
  | none => false

/-- Check 2 of `check_risk_limits` in isolation. -/
def maxPositionsBreach (cfg : RiskLimitsConfig) (env : RiskCheckEnv) : Bool :=
  decide (cfg.max_open_positions ≤ env.positions.length)

/-- Check 3 of `check_risk_limits` in isolation. -/
def dailyLossBreach (cfg : RiskLimitsConfig) (env : RiskCheckEnv) : Bool :=
  match env.daily_profit, env.account with
  | some p, some acct =>
      decide (p < 0 ∧ |p| / acct.balance * 100 > cfg.max_daily_loss_percent)
  | _, _ => false

/-- Check 4 of `check_risk_limits` in isolation. -/
def weeklyLossBreach (cfg : RiskLimitsConfig) (env : RiskCheckEnv) : Bool :=
  match env.weekly_profit, env.account with
  | some p, some acct =>
      decide (p < 0 ∧ |p| / acct.balance * 100 > cfg.max_weekly_loss_percent)
  | _, _ => false

/-- Check 5 of `check_risk_limits` in isolation. -/
def monthlyLossBreach (cfg : RiskLimitsConfig) (env : RiskCheckEnv) : Bool :=
  match env.monthly_profit, env.account with
  | some p, some acct =>
      decide (p < 0 ∧ |p| / acct.balance * 100 > cfg.max_monthly_loss_percent)
  | _, _ => false

/-- Check 6 of `check_risk_limits` in isolation: the symbols whose open
position count reaches the per-symbol maximum. -/
def symbolBreachList (cfg : RiskLimitsConfig) (env : RiskCheckEnv) : List String :=
  env.positions.dedup.filter
    (fun sym => cfg.max_positions_per_symbol ≤ env.positions.count sym)

/-- Check 7 of `check_risk_limits` in isolation. -/
def correlationBreach (corrEnabled : Bool) (env : RiskCheckEnv) : Bool :=
  corrEnabled && env.correlation_high

/-! ## Position lifecycle (`MT5RiskManager.manage_position`)

A position as reported by the gateway (`update_positions` builds the
dict from a fixed field list, so a re-fetched snapshot never carries the
`partial_close_<level>` tag keys), plus the tag keys added afterwards by
`manage_position`. -/

/-- `position.type`: `mt5.POSITION_TYPE_BUY` or `mt5.POSITION_TYPE_SELL`. -/
inductive PosType where
  | buy
  | sell
deriving Repr, DecidableEq

/-- The fields of one `pos_dict` built by `update_positions` (lines
283-299) that `manage_position` reads.  No tag keys are present. -/
structure RawPosition where
  ptype : PosType
  volume : ℚ
  open_price : ℚ
  current_price : ℚ
  sl : ℚ
  tp : ℚ
deriving Repr, DecidableEq

/-- A stored position dict: the gateway fields plus the
`partial_close_<profit_level>` tag keys (`consumed`) that
`manage_position` may have added since the last re-fetch. -/
structure PositionState where
  ptype : PosType
  volume : ℚ
  open_price : ℚ
  current_price : ℚ
  sl : ℚ
  tp : ℚ
  consumed : List ℚ
deriving Repr, DecidableEq

/-- A freshly fetched position dict has no tag keys. -/
def rawToState (r : RawPosition) : PositionState :=
  { ptype := r.ptype, volume := r.volume, open_price := r.open_price,
    current_price := r.current_price, sl := r.sl, tp := r.tp, consumed := [] }

/-- The `break_even` configuration section. -/
structure BreakEvenConfig where
  enabled : Bool
  activation_pips : ℚ
  offset_pips : ℚ
deriving Repr, DecidableEq

/-- The `trailing_stop` fields read by `manage_position`. -/
structure TrailingStopConfig where
  enabled : Bool
  activation_pips : ℚ
  distance_pips : ℚ
  step_pips : ℚ
deriving Repr, DecidableEq

/-- The `partial_close` configuration: `(profit_pips, close_percent)`
levels in list order. -/
structure PartialCloseConfig where
  enabled : Bool
  levels : List (ℚ × ℚ)
deriving Repr, DecidableEq

/-- The configuration sections read by `manage_position`. -/
structure ManageConfig where
  break_even : BreakEvenConfig
  trailing_stop : TrailingStopConfig
  partial_close : PartialCloseConfig
deriving Repr, DecidableEq

/-- Unrealized profit in pips (lines 1627-1631). -/
def profitPips (point : ℚ) (p : PositionState) : ℚ :=
  match p.ptype with
  | .buy => (p.current_price - p.open_price) / (10 * point)
  | .sell => (p.open_price - p.current_price) / (10 * point)

/-- The break-even block of `manage_position` (lines 1633-1658): the new
stop-loss it would submit via `_modify_position`, or `none` when the
block does not fire. -/
def breakEvenTarget (cfg : BreakEvenConfig) (point : ℚ) (p : PositionState) : Option ℚ :=
  if cfg.enabled ∧ p.sl ≠ 0 ∧ profitPips point p ≥ cfg.activation_pips then
    match p.ptype with
    | .buy =>
        if p.sl < p.open_price then
          let new_sl := p.open_price + cfg.offset_pips * 10 * point
          if new_sl > p.sl then some new_sl else none
        else none
    | .sell =>
        if p.sl > p.open_price then
          let new_sl := p.open_price - cfg.offset_pips * 10 * point
          if new_sl < p.sl ∨ p.sl = 0 then some new_sl else none
        else none
  else none

/-- The trailing-stop block of `manage_position` (lines 1660-1685). -/
def trailingTarget (cfg : TrailingStopConfig) (point : ℚ) (p : PositionState) : Option ℚ :=
  if cfg.enabled ∧ p.sl ≠ 0 ∧ profitPips point p ≥ cfg.activation_pips then
    match p.ptype with
    | .buy =>
        let new_sl := p.current_price - cfg.distance_pips * 10 * point
        if new_sl > p.sl + cfg.step_pips * 10 * point then some new_sl else none
    | .sell =>
        let new_sl := p.current_price + cfg.distance_pips * 10 * point
        if new_sl < p.sl - cfg.step_pips * 10 * point ∨ p.sl = 0 then some new_sl else none
  else none

/-- The volume that `_partial_close_position` (lines 1775-1790) would
close: `volume × percent/100`, clamped to `[volume_min, volume]` and
floored to the volume step. -/
def partialCloseVolume (si : SymbolInfo) (volume close_percent : ℚ) : ℚ :=
  let cv := volume * (close_percent / 100)
  let cv := max cv si.volume_min
  let cv := min cv volume
  (⌊cv / si.volume_step⌋ : ℚ) * si.volume_step

/-- The partial-close loop of `manage_position` (lines 1687-1706): scan
the configured levels in order; the first level whose profit threshold
is met, whose `partial_close_<level>` tag is absent and whose computed
close volume is valid fires; levels whose close attempt is invalid are
skipped and the scan continues (as the source's `for` loop does). -/
def partialCloseScan (si : SymbolInfo) (profit : ℚ) (p : PositionState) :
    List (ℚ × ℚ) → Option (ℚ × ℚ)
  | [] => none
  | (lvl, pct) :: rest =>
      if profit ≥ lvl ∧ lvl ∉ p.consumed then
        let cv := partialCloseVolume si p.volume pct
        if 0 < cv ∧ cv ≤ p.volume then some (lvl, cv)
        else partialCloseScan si profit p rest
      else partialCloseScan si profit p rest

/-- The action performed by one `manage_position` call. -/
inductive ManageEvent where
  | noAction
  | breakEvenMove (new_sl : ℚ)
  | trailingMove (new_sl : ℚ)
  | partialClose (level : ℚ) (closed_volume : ℚ)
deriving Repr, DecidableEq

/-- `MT5RiskManager.manage_position` (lines 1594-1712) on one stored
position, with every gateway call modelled as succeeding: break-even,
then trailing stop, then partial close, returning after the first action
(as the source's early `return True`s do).  A successful
`_modify_position` writes the new stop-loss back into the stored dict
(lines 1742-1745).  A successful `_partial_close_position` calls
`update_positions`, which replaces the stored dict by the fresh gateway
snapshot `refetch` (without tag keys); `manage_position` then adds the
single fired level's tag key (line 1705). -/
def managePosition (cfg : ManageConfig) (point : ℚ) (si : SymbolInfo)
    (refetch : RawPosition) (p : PositionState) : ManageEvent × PositionState :=
  match breakEvenTarget cfg.break_even point p with
  | some new_sl => (.breakEvenMove new_sl, { p with sl := new_sl })
  | none =>
    match trailingTarget cfg.trailing_stop point p with
    | some new_sl => (.trailingMove new_sl, { p with sl := new_sl })
    | none =>
      if cfg.partial_close.enabled then
        match partialCloseScan si (profitPips point p) p cfg.partial_close.levels with
        | some (lvl, cv) =>
            (.partialClose lvl cv, { rawToState refetch with consumed := [lvl] })
        | none => (.noAction, p)
      else (.noAction, p)

/-- Lifecycle configuration for the partial-close trace: only partial
close enabled, one level at 15 profit pips closing 25%. -/
def c5cfg : ManageConfig :=
  { break_even := { enabled := false, activation_pips := 10, offset_pips := 2 },
    trailing_stop :=
      { enabled := false, activation_pips := 15, distance_pips := 10, step_pips := 5 },
    partial_close := { enabled := true, levels := [(15, 25)] } }

/-- A long position of volume 1, 20 pips in profit. -/
def c5p : PositionState :=
  { ptype := .buy, volume := 1, open_price := 1, current_price := 51/50,
    sl := 0, tp := 0, consumed := [] }

/-- The gateway snapshot of the same position after the broker executed
the 25% partial close (volume 3/4), as `update_positions` would store it. -/
def c5raw : RawPosition :=
  { ptype := .buy, volume := 3/4, open_price := 1, current_price := 51/50,
    sl := 0, tp := 0 }

/-! ## Order replication (`mt5_replicator.py`, class `MT5OrderReplicator`)

A historical order returned by the source backend's
`get_orders_history` (the dict fields read by the replicator). -/

structure Order where
  ticket : ℕ
  symbol : String
  otype : ℕ
  volume : ℚ
  price : ℚ
  sl : ℚ
  tp : ℚ
  comment : String
deriving Repr, DecidableEq

/-- `self.replication_config` of `MT5OrderReplicator`. -/
structure ReplicationConfig where
  enabled : Bool
  volume_multiplier : ℚ
  reverse_direction : Bool
  symbols_filter : List String
  max_volume : ℚ
  min_volume : ℚ
  delay_seconds : ℚ
  include_sl_tp : Bool
  adjust_sl_tp_percent : ℚ
deriving Repr, DecidableEq

/-- The defaults set in `MT5OrderReplicator.__init__` (lines 52-62). -/
def defaultReplicationConfig : ReplicationConfig :=
  { enabled := false, volume_multiplier := 1, reverse_direction := false,
    symbols_filter := [], max_volume := 0, min_volume := 0,
    delay_seconds := 0, include_sl_tp := true, adjust_sl_tp_percent := 0 }

/-- `MT5OrderReplicator._should_replicate_order` (lines 294-319). -/
def shouldReplicateOrder (order : Order) (cfg : ReplicationConfig) : Bool :=
  if ¬ cfg.symbols_filter.isEmpty ∧ order.symbol ∉ cfg.symbols_filter then false
  else if cfg.min_volume > 0 ∧ order.volume < cfg.min_volume then false
  else if cfg.max_volume > 0 ∧ order.volume > cfg.max_volume then false
  else true

/-- The order-execution request `_replicate_order` passes to
`target_backend.execute_order`. -/
structure DispatchRequest where
  action : String
  symbol : String
  volume : ℚ
  sl : ℚ
  tp : ℚ
  comment : String
deriving Repr, DecidableEq

/-- The filter/transform step of `MT5OrderReplicator._replicate_order`
(lines 321-393): volume × multiplier, optional max-volume cap, side
(optionally reversed), protective levels stripped when disabled or
scaled by the adjustment percent (direction-aware), and the
`REP:<ticket>:` comment prefix.  Returns `none` for an unsupported order
type (the source returns a failure dict without calling
`execute_order`). -/
def replicateOrderRequest (order : Order) (cfg : ReplicationConfig) :
    Option DispatchRequest :=
  let volume := order.volume * cfg.volume_multiplier
  let volume := if cfg.max_volume > 0 then min volume cfg.max_volume else volume
  if order.otype = 0 ∨ order.otype = 1 then
    let action :=
      if order.otype = 0 then (if cfg.reverse_direction then "SELL" else "BUY")
      else (if cfg.reverse_direction then "BUY" else "SELL")
    let sl := order.sl
    let tp := order.tp
    let sl :=
      if ¬ cfg.include_sl_tp then 0
      else if cfg.adjust_sl_tp_percent ≠ 0 ∧ sl ≠ 0 then
        (if action = "BUY" then sl * (1 - cfg.adjust_sl_tp_percent / 100)
         else sl * (1 + cfg.adjust_sl_tp_percent / 100))
      else sl
    let tp :=
      if ¬ cfg.include_sl_tp then 0
      else if cfg.adjust_sl_tp_percent ≠ 0 ∧ tp ≠ 0 then
        (if action = "BUY" then tp * (1 + cfg.adjust_sl_tp_percent / 100)
         else tp * (1 - cfg.adjust_sl_tp_percent / 100))
      else tp
    some { action := action, symbol := order.symbol, volume := volume,
           sl := sl, tp := tp,
           comment := "REP:" ++ toString order.ticket ++ ":" ++ order.comment }
  else none

/-- Shared state of the monitor and replication loops: the
`processed_orders` set (modelled as a list in insertion order — Python's
`set` enumeration order is unspecified, and only eviction survival
matters to the theorems below), the `order_queue` (FIFO), and a log of
the `execute_order` calls made, as `(source ticket, target index,
execution success)`. -/
structure RepState where
  processed : List ℕ
  queue : List Order
  log : List (ℕ × ℕ × Bool)
deriving Repr, DecidableEq

/-- One iteration of `MT5OrderReplicator._monitor_loop` (lines 186-237):
skip when replication is disabled, the source is disconnected or the
history fetch failed; otherwise enqueue every fetched order whose ticket
is truthy and not yet in `processed_orders`, adding it to the set, then
cap the set at 10,000 entries by keeping the 5,000 most recent
(`set(list(self.processed_orders)[-5000:])`).
`monitorScan` is the body of the per-order filter loop (lines 216-221):
a truthy ticket not yet in the set is appended to the set and to the
batch of orders to enqueue. -/
def monitorScan (acc : List ℕ × List Order) (order : Order) : List ℕ × List Order :=
  if order.ticket ≠ 0 ∧ order.ticket ∉ acc.1 then
    (acc.1 ++ [order.ticket], acc.2 ++ [order])
  else acc

def monitorStep (cfg : ReplicationConfig) (sourceConnected : Bool)
    (batch : Option (List Order)) (s : RepState) : RepState :=
  if ¬ cfg.enabled then s
  else if ¬ sourceConnected then s
  else
    match batch with
    | none => s
    | some orders =>
        let pn := orders.foldl monitorScan (s.processed, [])
        let queue := s.queue ++ pn.2
        let processed :=
          if 10000 < pn.1.length then pn.1.drop (pn.1.length - 5000) else pn.1
        { processed := processed, queue := queue, log := s.log }

/-- The `execute_order` calls of the per-target loop (lines 269-285) for
one dequeued order: target `i` is attempted exactly when it is
connected; `execOk i` is the execution result reported by that target's
backend. -/
def dispatchAttempts (ticket : ℕ) (execOk : ℕ → Bool) :
    ℕ → List Bool → List (ℕ × ℕ × Bool)
  | _, [] => []
  | i, connected :: rest =>
      (if connected then [(ticket, i, execOk i)] else []) ++
        dispatchAttempts ticket execOk (i + 1) rest

/-- One iteration of `MT5OrderReplicator._replication_loop` (lines
239-292): dequeue one order (no-op when the queue is empty); drop it
when replication is disabled or the filters reject it; otherwise call
`_replicate_order` once per connected target (an `execute_order` attempt
is made exactly when the transform succeeds), ignoring per-target
results beyond logging.  The dequeued order is never re-enqueued. -/
def replicationStep (cfg : ReplicationConfig) (conns : List Bool)
    (execOk : ℕ → Bool) (s : RepState) : RepState :=
  match s.queue with
  | [] => s
  | order :: rest =>
      if ¬ cfg.enabled then { s with queue := rest }
      else if ¬ shouldReplicateOrder order cfg then { s with queue := rest }
      else
        let attempts :=
          match replicateOrderRequest order cfg with
          | some _ => dispatchAttempts order.ticket execOk 0 conns
          | none => []
        { s with queue := rest, log := s.log ++ attempts }

/-- One scheduler step of the two concurrent loops, with the gateway
inputs of that instant (source connectivity and fetched batch for the
monitor loop; per-target connectivity and execution results for the
replication loop). -/
inductive RepStep where
  | monitor (sourceConnected : Bool) (batch : Option (List Order))
  | replicate (conns : List Bool) (execOk : ℕ → Bool)

/-- Run one step. -/
def runStep (cfg : ReplicationConfig) (s : RepState) : RepStep → RepState
  | .monitor conn batch => monitorStep cfg conn batch s
  | .replicate conns execOk => replicationStep cfg conns execOk s

/-- Run an interleaving of monitor and replication iterations. -/
def runTrace (cfg : ReplicationConfig) (s : RepState) : List RepStep → RepState
  | [] => s
  | st :: rest => runTrace cfg (runStep cfg s st) rest

/-- `t` is in the processed set at every point of the trace (i.e. it was
there initially and eviction never removes it). -/
def ticketSurvives (cfg : ReplicationConfig) (t : ℕ) (s : RepState) :
    List RepStep → Bool
  | [] => s.processed.contains t
  | st :: rest => s.processed.contains t && ticketSurvives cfg t (runStep cfg s st) rest

/-- Number of `execute_order` attempts for source ticket `t` on target
index `j` in the log. -/
def attemptCount (t j : ℕ) (log : List (ℕ × ℕ × Bool)) : ℕ :=
  (log.filter (fun e => e.1 = t ∧ e.2.1 = j)).length

/-- Number of queued orders with ticket `t`. -/
def queueCount (t : ℕ) (queue : List Order) : ℕ :=
  (queue.filter (fun o => o.ticket = t)).length

/-! ## Multi-account registry (`mt5_replicator.py`, class `MT5MultiAccountReplicator`)

Backend connectivity (`check_connection`) is modelled as always
succeeding: C9/C10 are about registry state, not gateway failures. -/

/-- A partial configuration dict passed to `set_replication_config`,
which merges it into the stored config via `dict.update`: present keys
overwrite, absent keys keep their current value. -/
structure ConfigPatch where
  enabled : Option Bool := none
  volume_multiplier : Option ℚ := none
  reverse_direction : Option Bool := none
  symbols_filter : Option (List String) := none
  max_volume : Option ℚ := none
  min_volume : Option ℚ := none
  delay_seconds : Option ℚ := none
  include_sl_tp : Option Bool := none
  adjust_sl_tp_percent : Option ℚ := none
deriving Repr, DecidableEq

/-- `self.replication_config.update(config)` (line 101). -/
def applyPatch (p : ConfigPatch) (c : ReplicationConfig) : ReplicationConfig :=
  { enabled := p.enabled.getD c.enabled,
    volume_multiplier := p.volume_multiplier.getD c.volume_multiplier,
    reverse_direction := p.reverse_direction.getD c.reverse_direction,
    symbols_filter := p.symbols_filter.getD c.symbols_filter,
    max_volume := p.max_volume.getD c.max_volume,
    min_volume := p.min_volume.getD c.min_volume,
    delay_seconds := p.delay_seconds.getD c.delay_seconds,
    include_sl_tp := p.include_sl_tp.getD c.include_sl_tp,
    adjust_sl_tp_percent := p.adjust_sl_tp_percent.getD c.adjust_sl_tp_percent }

/-- The registry-visible state of one `MT5OrderReplicator` instance:
its config dict, its `running` flag, and the account ids of its
registered target backends. -/
structure Replicator where
  config : ReplicationConfig
  running : Bool
  targets : List String
deriving Repr, DecidableEq

/-- `MT5OrderReplicator.start_replication` (lines 113-158), with every
backend connected: no-op when already running; fails when there is no
target; otherwise sets `enabled` and `running`. -/
def startReplicatorObj (r : Replicator) : Bool × Replicator :=
  if r.running then (true, r)
  else if r.targets.isEmpty then (false, r)
  else (true, { r with config := { r.config with enabled := true }, running := true })

/-- `MT5OrderReplicator.stop_replication` (lines 160-184): no-op when
not running; otherwise clears `enabled` and `running`. -/
def stopReplicatorObj (r : Replicator) : Replicator :=
  if ¬ r.running then r
  else { r with config := { r.config with enabled := false }, running := false }

/-- `MT5MultiAccountReplicator` state: registered account ids, the
per-source replicator instances (`self.replicators`, keyed by source
account id) and the replication groups (`self.replication_groups`,
`name ↦ (source, targets)`). -/
structure MultiState where
  backends : List String
  replicators : List (String × Replicator)
  groups : List (String × String × List String)
deriving Repr, DecidableEq

/-- In-place update of the first binding of `k` in an association list
(Python dict entry mutation). -/
def updateAssoc (k : String) (f : Replicator → Replicator) :
    List (String × Replicator) → List (String × Replicator)
  | [] => []
  | (k', v) :: rest =>
      if k' = k then (k', f v) :: rest else (k', v) :: updateAssoc k f rest

/-- `add_target_backend` (lines 73-81) for each valid target: append if
not already registered. -/
def addTargets (cur : List String) (new : List String) : List String :=
  new.foldl (fun acc t => if t ∈ acc then acc else acc ++ [t]) cur

/-- `MT5MultiAccountReplicator.create_replication_group` (lines
530-581): reject duplicate names and unknown sources; drop unknown
targets and targets equal to the source; create the per-source
replicator if absent, else add the targets to the existing one. -/
def createReplicationGroup (s : MultiState) (name source : String)
    (targets : List String) : Bool × MultiState :=
  if (s.groups.lookup name).isSome then (false, s)
  else if source ∉ s.backends then (false, s)
  else
    let valid := targets.filter (fun t => t ∈ s.backends ∧ t ≠ source)
    let groups := s.groups ++ [(name, source, valid)]
    let replicators :=
      match s.replicators.lookup source with
      | none =>
          s.replicators ++ [(source, ⟨defaultReplicationConfig, false, valid⟩)]
      | some _ =>
          updateAssoc source (fun r => { r with targets := addTargets r.targets valid })
            s.replicators
    (true, { s with groups := groups, replicators := replicators })

/-- `MT5MultiAccountReplicator.set_group_config` (lines 703-730):
resolve the group's source and merge the patch into that source's
(shared) replicator config. -/
def setGroupConfig (s : MultiState) (name : String) (p : ConfigPatch) :
    Bool × MultiState :=
  match s.groups.lookup name with
  | none => (false, s)
  | some (source, _) =>
      match s.replicators.lookup source with
      | none => (false, s)
      | some _ =>
          let replicators :=
            updateAssoc source (fun r => { r with config := applyPatch p r.config })
              s.replicators
          (true, { s with replicators := replicators })

/-- `MT5MultiAccountReplicator.get_group_config` (lines 732-755). -/
def getGroupConfig (s : MultiState) (name : String) : Option ReplicationConfig :=
  match s.groups.lookup name with
  | none => none
  | some (source, _) =>
      match s.replicators.lookup source with
      | none => none
      | some r => some r.config

/-- `MT5MultiAccountReplicator.start_replication` (lines 757-780). -/
def startReplicationGroup (s : MultiState) (name : String) : Bool × MultiState :=
  match s.groups.lookup name with
  | none => (false, s)
  | some (source, _) =>
      match s.replicators.lookup source with
      | none => (false, s)
      | some r =>
          let sr := startReplicatorObj r
          (sr.1, { s with replicators := updateAssoc source (fun _ => sr.2) s.replicators })

/-- Whether some **other** group shares this group's source and its
(shared) config is enabled — the `is_source_active` scan of
`stop_replication` (lines 803-811), which reads each sibling's config
through `get_group_config`. -/
def isSourceActive (s : MultiState) (name source : String) : Bool :=
  s.groups.any (fun g =>
    decide (g.1 ≠ name) && decide (g.2.1 = source) &&
      (match getGroupConfig s g.1 with
       | some c => c.enabled
       | none => false))

/-- `MT5MultiAccountReplicator.stop_replication` (lines 782-823): stop
the per-source pipeline only when no other group with the same source
has an enabled config; otherwise only flip `enabled := False` in the
(shared) config via `set_replication_config` while the pipeline keeps
running. -/
def stopReplicationGroup (s : MultiState) (name : String) : Bool × MultiState :=
  match s.groups.lookup name with
  | none => (false, s)
  | some (source, _) =>
      match s.replicators.lookup source with
      | none => (false, s)
      | some _ =>
          if ¬ isSourceActive s name source then
            (true, { s with replicators := updateAssoc source stopReplicatorObj s.replicators })
          else
            let replicators :=
              updateAssoc source
                (fun r => { r with config := { r.config with enabled := false } })
                s.replicators
            (true, { s with replicators := replicators })

/-! ## Concrete inputs used by the claim witnesses and counterexamples -/

/-- Concrete lifecycle configuration exhibiting a second stop
modification: default break-even and trailing-stop settings. -/
def c4cfg : ManageConfig :=
  { break_even := { enabled := true, activation_pips := 10, offset_pips := 2 },
    trailing_stop :=
      { enabled := true, activation_pips := 15, distance_pips := 10, step_pips := 5 },
    partial_close := { enabled := false, levels := [] } }

/-- A long position 30 pips in profit with its stop still below entry. -/
def c4p : PositionState :=
  { ptype := .buy, volume := 1, open_price := 1, current_price := 103/100,
    sl := 99/100, tp := 0, consumed := [] }

/-- The gateway snapshot of `c4p` (irrelevant here: no partial close fires). -/
def c4raw : RawPosition :=
  { ptype := .buy, volume := 1, open_price := 1, current_price := 103/100,
    sl := 99/100, tp := 0 }

/-- Replication configuration with replication switched on, all other
fields at their `__init__` defaults. -/
def c6cfg : ReplicationConfig :=
  { defaultReplicationConfig with enabled := true }

/-- A source order with ticket 100. -/
def c6order : Order :=
  { ticket := 100, symbol := "EURUSD", otype := 0, volume := 1, price := 0,
    sl := 0, tp := 0, comment := "" }

/-- The source order of the specification's two transform examples. -/
def c8order : Order :=
  { ticket := 100, symbol := "EURUSD", otype := 0, volume := 1, price := 0,
    sl := 219/200, tp := 111/100, comment := "" }

/-- `{multiplier: 0.5, reverse: false, includeLevels: true, adjustPercent: 0}`. -/
def c8cfg1 : ReplicationConfig :=
  { defaultReplicationConfig with volume_multiplier := 1/2 }

/-- `{multiplier: 1.0, reverse: true, includeLevels: false}`. -/
def c8cfg2 : ReplicationConfig :=
  { defaultReplicationConfig with
    volume_multiplier := 1
    reverse_direction := true
    include_sl_tp := false }

/-- Concrete registry: groups G1 and G2 share source S (one replicator),
G3 uses source B. -/
def c10state : MultiState :=
  { backends := ["S", "T1", "B", "T3"],
    replicators := [("S", ⟨defaultReplicationConfig, false, ["T1"]⟩),
                    ("B", ⟨defaultReplicationConfig, false, ["T3"]⟩)],
    groups := [("G1", "S", ["T1"]), ("G2", "S", ["T1"]), ("G3", "B", ["T3"])] }

/-- The patch `{enabled: true, volume_multiplier: 0.5}`. -/
def c10patch : ConfigPatch :=
  { enabled := some true, volume_multiplier := some (1/2) }

/-- Registry with three accounts and no groups yet. -/
def c9s0 : MultiState :=
  { backends := ["S", "T1", "T2"], replicators := [], groups := [] }

/-- After `create_replication_group("G1", "S", ["T1"])`. -/
def c9s1 : MultiState := (createReplicationGroup c9s0 "G1" "S" ["T1"]).2

/-- After `create_replication_group("G2", "S", ["T2"])`: G1 and G2 share
source S and hence one `MT5OrderReplicator`. -/
def c9s2 : MultiState := (createReplicationGroup c9s1 "G2" "S" ["T2"]).2

/-- After `start_replication("G1")`: the shared pipeline is running and
its (shared) config is enabled. -/
def c9s3 : MultiState := (startReplicationGroup c9s2 "G1").2

/-- The shared source-S replicator in `c9s3`. -/
def c9rep : Replicator :=
  { config := { defaultReplicationConfig with enabled := true },
    running := true, targets := ["T1", "T2"] }

/-! # Theorems -/

theorem floor_add_one_le_ceil_of_half_le (q : ℚ) (h : (1:ℚ)/2 ≤ q - (⌊q⌋ : ℚ)) :
    ⌊q⌋ + 1 ≤ ⌈q⌉ := by
  have h1 : (⌊q⌋ : ℚ) < q := by linarith
  have h2 : (⌊q⌋ : ℚ) < (⌈q⌉ : ℚ) := lt_of_lt_of_le h1 (Int.le_ceil q)
  have h3 : ⌊q⌋ < ⌈q⌉ := by exact_mod_cast h2
  omega

theorem roundHalfEven_le_ceil (q : ℚ) : roundHalfEven q ≤ ⌈q⌉ := by
  unfold roundHalfEven
  split
  · exact Int.floor_le_ceil q
  · rename_i h1
    push_neg at h1
    have := floor_add_one_le_ceil_of_half_le q h1
    split
    · exact this
    · split
      · exact Int.floor_le_ceil q
      · exact this

theorem floor_le_roundHalfEven (q : ℚ) : ⌊q⌋ ≤ roundHalfEven q := by
  unfold roundHalfEven
  split
  · exact le_rfl
  · split
    · omega
    · split
      · exact le_rfl
      · omega

theorem roundToStep_bounds (r : Rounding) (step v : ℚ) (a b : ℤ) (hstep : 0 < step)
    (h1 : (a : ℚ) * step ≤ v) (h2 : v ≤ (b : ℚ) * step) :
    (a : ℚ) * step ≤ roundToStep r step v ∧ roundToStep r step v ≤ (b : ℚ) * step := by
  have ha : (a : ℚ) ≤ v / step := (le_div_iff₀ hstep).mpr h1
  have hb : v / step ≤ (b : ℚ) := (div_le_iff₀ hstep).mpr h2
  have hfl : a ≤ ⌊v / step⌋ := Int.le_floor.mpr ha
  have hfu : ⌊v / step⌋ ≤ b := by
    have := Int.floor_le_floor hb
    simpa using this
  have hcl : a ≤ ⌈v / step⌉ := by
    have := Int.ceil_le_ceil ha
    simpa using this
  have hcu : ⌈v / step⌉ ≤ b := Int.ceil_le.mpr hb
  have key : ∀ k : ℤ, a ≤ k → k ≤ b →
      (a : ℚ) * step ≤ (k : ℚ) * step ∧ (k : ℚ) * step ≤ (b : ℚ) * step := by
    intro k hak hkb
    constructor
    · exact mul_le_mul_of_nonneg_right (by exact_mod_cast hak) (le_of_lt hstep)
    · exact mul_le_mul_of_nonneg_right (by exact_mod_cast hkb) (le_of_lt hstep)
  cases r with
  | up => exact key _ hcl hcu
  | down => exact key _ hfl hfu
  | nearest =>
      exact key _ (le_trans hfl (floor_le_roundHalfEven _))
        (le_trans (roundHalfEven_le_ceil _) hcu)

theorem roundToStep_isMultiple (r : Rounding) (step v : ℚ) :
    ∃ k : ℤ, roundToStep r step v = (k : ℚ) * step := by
  cases r with
  | up => exact ⟨⌈v / step⌉, rfl⟩
  | down => exact ⟨⌊v / step⌋, rfl⟩
  | nearest => exact ⟨roundHalfEven (v / step), rfl⟩

/-! ## Claim C1: drawdown percent -/

/-- C1 counterexample: `update_account_info` does **not** clamp the
drawdown at zero.  With balance 100 and equity 150 the code stores
`-50`, while the claimed formula `max(0, 1 − equity/balance) × 100`
gives `0`; in particular the stored value is negative when equity
exceeds balance. -/
theorem C1_counterexample :
    drawdown_percent 100 150 = -50 ∧
    drawdown_percent 100 150 < 0 ∧
    drawdown_percent 100 150 ≠ spec_drawdown_percent 100 150 := by
  refine ⟨?_, ?_, ?_⟩ <;> norm_num [drawdown_percent, spec_drawdown_percent]

/-- C1 (amended): for every account snapshot with positive balance the
computed `drawdown_percent` equals `(1 − equity/balance) × 100` with no
`max(0, ·)` clamp, so it is negative exactly when equity exceeds
balance. -/
theorem C1_drawdown_formula (balance equity : ℚ) (hb : 0 < balance) :
    drawdown_percent balance equity = (1 - equity / balance) * 100 ∧
    (drawdown_percent balance equity < 0 ↔ balance < equity) := by
  constructor
  · simp [drawdown_percent, hb]
  · simp only [drawdown_percent, if_pos hb]
    rw [mul_neg_iff]
    constructor
    · rintro (⟨_, h⟩ | ⟨h, _⟩)
      · linarith
      · have : equity / balance > 1 := by linarith
        have := (one_lt_div hb).mp this
        exact this
    · intro h
      right
      constructor
      · have : 1 < equity / balance := (one_lt_div hb).mpr h
        linarith
      · norm_num

/-- C1 witness: the amended formula at balance 100, equity 150. -/
theorem C1_witness :
    drawdown_percent 100 150 = (1 - 150 / 100) * 100 ∧
    (drawdown_percent 100 150 < 0 ↔ (100 : ℚ) < 150) :=
  C1_drawdown_formula 100 150 (by norm_num)

/-! ## Claim C2: position-size output bounds -/

/-- C2: for every sizing method, every rounding policy and every valid
input (trading allowed, symbol metadata available with positive
`volume_step` dividing both volume bounds, `volume_min ≤ volume_max`),
the volume returned by `calculate_position_size` lies within
`[volume_min, volume_max]` and is an integer multiple of `volume_step`.
The tolerance caveat of the claim disappears in the exact `ℚ` model. -/
theorem C2_position_size_in_bounds (cfg : PositionSizingConfig) (rcfg : RecoveryConfig)
    (env : SizingEnv) (symbol action : String) (si : SymbolInfo)
    (hallow : env.trading_allowed = true)
    (hsi : env.symbol_info = some si)
    (hstep : 0 < si.volume_step)
    (hmin : ∃ a : ℤ, si.volume_min = (a : ℚ) * si.volume_step)
    (hmax : ∃ b : ℤ, si.volume_max = (b : ℚ) * si.volume_step)
    (hmm : si.volume_min ≤ si.volume_max) :
    si.volume_min ≤ calculate_position_size cfg rcfg env symbol action ∧
    calculate_position_size cfg rcfg env symbol action ≤ si.volume_max ∧
    ∃ k : ℤ, calculate_position_size cfg rcfg env symbol action = (k : ℚ) * si.volume_step := by
  obtain ⟨a, ha⟩ := hmin
  obtain ⟨b, hb⟩ := hmax
  have hcalc : calculate_position_size cfg rcfg env symbol action =
      roundToStep cfg.position_size_rounding si.volume_step
        (min (max (methodVolume cfg env symbol action *
          (if rcfg.enabled ∧ env.recovery_active then 1 - rcfg.risk_reduction_percent / 100 else 1))
          si.volume_min) si.volume_max) := by
    simp only [calculate_position_size, hallow, hsi, not_true_eq_false, if_false]
  set v := methodVolume cfg env symbol action *
      (if rcfg.enabled ∧ env.recovery_active then 1 - rcfg.risk_reduction_percent / 100 else 1) with hv
  have hlo : si.volume_min ≤ min (max v si.volume_min) si.volume_max :=
    le_min (le_max_right _ _) hmm
  have hhi : min (max v si.volume_min) si.volume_max ≤ si.volume_max :=
    min_le_right _ _
  have hbnd := roundToStep_bounds cfg.position_size_rounding si.volume_step
    (min (max v si.volume_min) si.volume_max) a b hstep
    (by rw [← ha]; exact hlo) (by rw [← hb]; exact hhi)
  rw [← ha, ← hb] at hbnd
  refine ⟨?_, ?_, ?_⟩
  · rw [hcalc]; exact hbnd.1
  · rw [hcalc]; exact hbnd.2
  · rw [hcalc]; exact roundToStep_isMultiple _ _ _

/-- C2 witness: the bounds theorem applied at a concrete valid input. -/
theorem C2_witness :
    c2si.volume_min ≤ calculate_position_size c2cfg ⟨false, 50⟩ c2env "EURUSD" "BUY" ∧
    calculate_position_size c2cfg ⟨false, 50⟩ c2env "EURUSD" "BUY" ≤ c2si.volume_max ∧
    ∃ k : ℤ, calculate_position_size c2cfg ⟨false, 50⟩ c2env "EURUSD" "BUY" =
      (k : ℚ) * c2si.volume_step :=
  C2_position_size_in_bounds c2cfg ⟨false, 50⟩ c2env "EURUSD" "BUY" c2si
    rfl rfl (by norm_num [c2si]) ⟨1, by norm_num [c2si]⟩ ⟨10000, by norm_num [c2si]⟩
    (by norm_num [c2si])

/-! ## Claim C3: independent risk-limit checks -/

/-- C3: `check_risk_limits` evaluates every limit check (drawdown, max
positions, daily loss, weekly loss, monthly loss, per-symbol count,
correlation) independently: each flag equals the value of its own check
in isolation regardless of the other checks, and the returned boolean is
the conjunction (negated disjunction) of all breaches.  In particular a
daily-loss breach sets `daily_loss_reached` and makes the result false
while the weekly and monthly flags still equal their own statistics'
checks. -/
theorem C3_risk_limits_independent (cfg : RiskLimitsConfig) (corrEnabled : Bool)
    (env : RiskCheckEnv) :
    (check_risk_limits cfg corrEnabled env).1.max_drawdown_reached = drawdownBreach cfg env ∧
    (check_risk_limits cfg corrEnabled env).1.max_positions_reached = maxPositionsBreach cfg env ∧
    (check_risk_limits cfg corrEnabled env).1.daily_loss_reached = dailyLossBreach cfg env ∧
    (check_risk_limits cfg corrEnabled env).1.weekly_loss_reached = weeklyLossBreach cfg env ∧
    (check_risk_limits cfg corrEnabled env).1.monthly_loss_reached = monthlyLossBreach cfg env ∧
    (∀ s, s ∈ (check_risk_limits cfg corrEnabled env).1.max_risk_per_symbol_reached ↔
      s ∈ env.positions ∧ cfg.max_positions_per_symbol ≤ env.positions.count s) ∧
    (check_risk_limits cfg corrEnabled env).1.correlation_risk_high =
      correlationBreach corrEnabled env ∧
    (check_risk_limits cfg corrEnabled env).2 =
      !(drawdownBreach cfg env || maxPositionsBreach cfg env || dailyLossBreach cfg env ||
        weeklyLossBreach cfg env || monthlyLossBreach cfg env ||
        !(symbolBreachList cfg env).isEmpty || correlationBreach corrEnabled env) := by
  refine ⟨rfl, rfl, rfl, rfl, rfl, ?_, rfl, ?_⟩
  · intro s
    simp [check_risk_limits, List.mem_filter, List.mem_dedup]
  · simp only [check_risk_limits, drawdownBreach, maxPositionsBreach, dailyLossBreach,
      weeklyLossBreach, monthlyLossBreach, symbolBreachList, correlationBreach]
    generalize (match env.account with
      | some acct =>
          decide (drawdown_percent acct.balance acct.equity > cfg.max_drawdown_percent)
      | none => false) = b1
    generalize decide (cfg.max_open_positions ≤ env.positions.length) = b2
    generalize (match env.daily_profit, env.account with
      | some p, some acct =>
          decide (p < 0 ∧ |p| / acct.balance * 100 > cfg.max_daily_loss_percent)
      | _, _ => false) = b3
    generalize (match env.weekly_profit, env.account with
      | some p, some acct =>
          decide (p < 0 ∧ |p| / acct.balance * 100 > cfg.max_weekly_loss_percent)
      | _, _ => false) = b4
    generalize (match env.monthly_profit, env.account with
      | some p, some acct =>
          decide (p < 0 ∧ |p| / acct.balance * 100 > cfg.max_monthly_loss_percent)
      | _, _ => false) = b5
    generalize (env.positions.dedup.filter
      (fun sym => cfg.max_positions_per_symbol ≤ env.positions.count sym)).isEmpty = b6
    generalize (corrEnabled && env.correlation_high) = b7
    cases b1 <;> cases b2 <;> cases b3 <;> cases b4 <;> cases b5 <;> cases b6 <;>
      cases b7 <;> rfl

/-! ## Claim C4: break-even / trailing-stop monotonicity and idempotence -/

theorem manage_fst_eq_breakEven {cfg : ManageConfig} {point : ℚ} {si : SymbolInfo}
    {refetch : RawPosition} {p : PositionState} {s : ℚ} :
    (managePosition cfg point si refetch p).1 = .breakEvenMove s ↔
    breakEvenTarget cfg.break_even point p = some s := by
  unfold managePosition
  cases hbe : breakEvenTarget cfg.break_even point p with
  | some t => simp
  | none =>
      cases htr : trailingTarget cfg.trailing_stop point p with
      | some t => simp
      | none =>
          by_cases hen : cfg.partial_close.enabled
          · simp only [if_pos hen]
            cases hps : partialCloseScan si (profitPips point p) p cfg.partial_close.levels with
            | some lv => cases lv; simp
            | none => simp
          · simp [hen]

theorem manage_fst_eq_trailing {cfg : ManageConfig} {point : ℚ} {si : SymbolInfo}
    {refetch : RawPosition} {p : PositionState} {s : ℚ} :
    (managePosition cfg point si refetch p).1 = .trailingMove s ↔
    breakEvenTarget cfg.break_even point p = none ∧
      trailingTarget cfg.trailing_stop point p = some s := by
  unfold managePosition
  cases hbe : breakEvenTarget cfg.break_even point p with
  | some t => simp
  | none =>
      cases htr : trailingTarget cfg.trailing_stop point p with
      | some t => simp
      | none =>
          by_cases hen : cfg.partial_close.enabled
          · simp only [if_pos hen]
            cases hps : partialCloseScan si (profitPips point p) p cfg.partial_close.levels with
            | some lv => cases lv; simp
            | none => simp
          · simp [hen]

theorem manage_snd_of_breakEven {cfg : ManageConfig} {point : ℚ} (si : SymbolInfo)
    (refetch : RawPosition) {p : PositionState} {s : ℚ}
    (hbe : breakEvenTarget cfg.break_even point p = some s) :
    (managePosition cfg point si refetch p).2 = { p with sl := s } := by
  unfold managePosition
  rw [hbe]

theorem manage_snd_of_trailing {cfg : ManageConfig} {point : ℚ} (si : SymbolInfo)
    (refetch : RawPosition) {p : PositionState} {s : ℚ}
    (hbe : breakEvenTarget cfg.break_even point p = none)
    (htr : trailingTarget cfg.trailing_stop point p = some s) :
    (managePosition cfg point si refetch p).2 = { p with sl := s } := by
  unfold managePosition
  rw [hbe, htr]

theorem breakEvenTarget_some_buy {cfg : BreakEvenConfig} {point : ℚ}
    {p : PositionState} {s : ℚ} (h : breakEvenTarget cfg point p = some s)
    (hty : p.ptype = .buy) :
    s = p.open_price + cfg.offset_pips * 10 * point ∧ p.sl < p.open_price ∧ p.sl < s := by
  simp only [breakEvenTarget, hty] at h
  split_ifs at h with h0 h1 h2
  · obtain he := Option.some_inj.mp h
    subst he
    exact ⟨rfl, h1, h2⟩

theorem breakEvenTarget_some_sell {cfg : BreakEvenConfig} {point : ℚ}
    {p : PositionState} {s : ℚ} (h : breakEvenTarget cfg point p = some s)
    (hty : p.ptype = .sell) :
    s = p.open_price - cfg.offset_pips * 10 * point ∧ p.open_price < p.sl ∧ s < p.sl := by
  simp only [breakEvenTarget, hty] at h
  split_ifs at h with h0 h1 h2
  · obtain he := Option.some_inj.mp h
    subst he
    exact ⟨rfl, h1, h2.resolve_right h0.2.1⟩

theorem trailingTarget_some_buy {cfg : TrailingStopConfig} {point : ℚ}
    {p : PositionState} {s : ℚ} (h : trailingTarget cfg point p = some s)
    (hty : p.ptype = .buy) :
    s = p.current_price - cfg.distance_pips * 10 * point ∧
    p.sl + cfg.step_pips * 10 * point < s := by
  simp only [trailingTarget, hty] at h
  split_ifs at h with h0 h1
  · obtain he := Option.some_inj.mp h
    subst he
    exact ⟨rfl, h1⟩

theorem trailingTarget_some_sell {cfg : TrailingStopConfig} {point : ℚ}
    {p : PositionState} {s : ℚ} (h : trailingTarget cfg point p = some s)
    (hty : p.ptype = .sell) :
    s = p.current_price + cfg.distance_pips * 10 * point ∧
    s < p.sl - cfg.step_pips * 10 * point := by
  simp only [trailingTarget, hty] at h
  split_ifs at h with h0 h1
  · obtain he := Option.some_inj.mp h
    subst he
    exact ⟨rfl, h1.resolve_right h0.2.1⟩

theorem breakEvenTarget_none_buy {cfg : BreakEvenConfig} {point : ℚ}
    {p : PositionState} (hty : p.ptype = .buy) (h : p.open_price ≤ p.sl) :
    breakEvenTarget cfg point p = none := by
  simp only [breakEvenTarget, hty]
  split_ifs with h0 h1 h2
  · exact absurd h1 (not_lt.mpr h)
  all_goals rfl

theorem breakEvenTarget_none_sell {cfg : BreakEvenConfig} {point : ℚ}
    {p : PositionState} (hty : p.ptype = .sell) (h : p.sl ≤ p.open_price) :
    breakEvenTarget cfg point p = none := by
  simp only [breakEvenTarget, hty]
  split_ifs with h0 h1 h2
  · exact absurd h1 (not_lt.mpr h)
  all_goals rfl

theorem trailingTarget_none_buy {cfg : TrailingStopConfig} {point : ℚ}
    {p : PositionState} (hty : p.ptype = .buy)
    (h : p.current_price - cfg.distance_pips * 10 * point ≤
      p.sl + cfg.step_pips * 10 * point) :
    trailingTarget cfg point p = none := by
  simp only [trailingTarget, hty]
  split_ifs with h0 h1
  · exact absurd h1 (not_lt.mpr h)
  all_goals rfl

theorem trailingTarget_none_sell {cfg : TrailingStopConfig} {point : ℚ}
    {p : PositionState} (hty : p.ptype = .sell)
    (h1 : p.sl - cfg.step_pips * 10 * point ≤
      p.current_price + cfg.distance_pips * 10 * point)
    (h2 : p.sl ≠ 0) :
    trailingTarget cfg point p = none := by
  simp only [trailingTarget, hty]
  split_ifs with h0 hc
  · rcases hc with hc | hc
    · exact absurd hc (not_lt.mpr h1)
    · exact absurd hc h2
  all_goals rfl

/-- C4 counterexample: with break-even and trailing both enabled at their
default settings, the first `manage_position` call moves the stop to
break-even and returns; the second call at the **same unchanged price**
performs a further stop modification (the trailing stop), so invoking
`manage_position` twice in succession with the same price is not free of
a second stop modification. -/
theorem C4_counterexample :
    (managePosition c4cfg (1/10000) c2si c4raw c4p).1 = .breakEvenMove (501/500) ∧
    (managePosition c4cfg (1/10000) c2si c4raw
      (managePosition c4cfg (1/10000) c2si c4raw c4p).2).1 = .trailingMove (51/50) := by
  have hbe1 : breakEvenTarget c4cfg.break_even (1/10000) c4p = some (501/500) := by
    norm_num [breakEvenTarget, profitPips, c4cfg, c4p]
  have h1 : managePosition c4cfg (1/10000) c2si c4raw c4p =
      (.breakEvenMove (501/500), { c4p with sl := 501/500 }) := by
    unfold managePosition
    rw [hbe1]
  have hbe2 : breakEvenTarget c4cfg.break_even (1/10000) { c4p with sl := 501/500 } = none := by
    norm_num [breakEvenTarget, profitPips, c4cfg, c4p]
  have htr2 : trailingTarget c4cfg.trailing_stop (1/10000) { c4p with sl := 501/500 } =
      some (51/50) := by
    norm_num [trailingTarget, profitPips, c4cfg, c4p]
  constructor
  · rw [h1]
  · rw [h1]
    unfold managePosition
    rw [hbe2, htr2]

/-- C4 (amended): any break-even or trailing-stop update replaces the
stop-loss with a strictly better one for the position's side (higher for
long, lower for short), and re-invoking `manage_position` with the same
unchanged price never performs a second modification **by the same
rule**; a second call may still modify the stop once by the *other* rule
(break-even first, trailing next), as the counterexample shows.
Hypotheses: nonnegative offset/step/distance pips and point size, and a
positive current price (all true of any real symbol and of the shipped
defaults). -/
theorem C4_stop_monotone_no_same_rule_twice
    (cfg : ManageConfig) (point : ℚ) (si : SymbolInfo) (refetch : RawPosition)
    (p : PositionState)
    (hoff : 0 ≤ cfg.break_even.offset_pips)
    (hstep : 0 ≤ cfg.trailing_stop.step_pips)
    (hdist : 0 ≤ cfg.trailing_stop.distance_pips)
    (hpt : 0 ≤ point)
    (hcur : 0 < p.current_price) :
    (∀ s, (managePosition cfg point si refetch p).1 = .breakEvenMove s →
      (p.ptype = .buy → p.sl < s) ∧ (p.ptype = .sell → s < p.sl)) ∧
    (∀ s, (managePosition cfg point si refetch p).1 = .trailingMove s →
      (p.ptype = .buy → p.sl < s) ∧ (p.ptype = .sell → s < p.sl)) ∧
    (∀ s s', (managePosition cfg point si refetch p).1 = .breakEvenMove s →
      (managePosition cfg point si refetch
        (managePosition cfg point si refetch p).2).1 ≠ .breakEvenMove s') ∧
    (∀ s s', (managePosition cfg point si refetch p).1 = .trailingMove s →
      (managePosition cfg point si refetch
        (managePosition cfg point si refetch p).2).1 ≠ .trailingMove s') := by
  have hq : (0:ℚ) ≤ 10 * point := by linarith
  refine ⟨?_, ?_, ?_, ?_⟩
  · intro s hev
    have hbe := manage_fst_eq_breakEven.mp hev
    constructor
    · intro hty
      exact (breakEvenTarget_some_buy hbe hty).2.2
    · intro hty
      exact (breakEvenTarget_some_sell hbe hty).2.2
  · intro s hev
    obtain ⟨hbe, htr⟩ := manage_fst_eq_trailing.mp hev
    constructor
    · intro hty
      have h := trailingTarget_some_buy htr hty
      nlinarith [h.2, mul_nonneg hstep hq]
    · intro hty
      have h := trailingTarget_some_sell htr hty
      nlinarith [h.2, mul_nonneg hstep hq]
  · intro s s' hev
    have hbe := manage_fst_eq_breakEven.mp hev
    have hsnd := manage_snd_of_breakEven si refetch hbe
    rw [hsnd]
    intro hev2
    have hbe2 := manage_fst_eq_breakEven.mp hev2
    cases hty : p.ptype with
    | buy =>
        have h1 := breakEvenTarget_some_buy hbe hty
        have : breakEvenTarget cfg.break_even point { p with sl := s } = none := by
          apply breakEvenTarget_none_buy (by simpa using hty)
          show p.open_price ≤ s
          rw [h1.1]
          nlinarith [mul_nonneg hoff hq]
        rw [this] at hbe2
        exact Option.noConfusion hbe2
    | sell =>
        have h1 := breakEvenTarget_some_sell hbe hty
        have : breakEvenTarget cfg.break_even point { p with sl := s } = none := by
          apply breakEvenTarget_none_sell (by simpa using hty)
          show s ≤ p.open_price
          rw [h1.1]
          nlinarith [mul_nonneg hoff hq]
        rw [this] at hbe2
        exact Option.noConfusion hbe2
  · intro s s' hev
    obtain ⟨hbe, htr⟩ := manage_fst_eq_trailing.mp hev
    have hsnd := manage_snd_of_trailing si refetch hbe htr
    rw [hsnd]
    intro hev2
    obtain ⟨_, htr2⟩ := manage_fst_eq_trailing.mp hev2
    cases hty : p.ptype with
    | buy =>
        have h1 := trailingTarget_some_buy htr hty
        have : trailingTarget cfg.trailing_stop point { p with sl := s } = none := by
          apply trailingTarget_none_buy (by simpa using hty)
          show p.current_price - cfg.trailing_stop.distance_pips * 10 * point ≤
            s + cfg.trailing_stop.step_pips * 10 * point
          rw [h1.1]
          nlinarith [mul_nonneg hstep hq]
        rw [this] at htr2
        exact Option.noConfusion htr2
    | sell =>
        have h1 := trailingTarget_some_sell htr hty
        have hspos : 0 < s := by
          rw [h1.1]
          nlinarith [mul_nonneg hdist hq]
        have : trailingTarget cfg.trailing_stop point { p with sl := s } = none := by
          apply trailingTarget_none_sell (by simpa using hty)
          · show s - cfg.trailing_stop.step_pips * 10 * point ≤
              p.current_price + cfg.trailing_stop.distance_pips * 10 * point
            rw [h1.1]
            nlinarith [mul_nonneg hstep hq]
          · exact ne_of_gt hspos
        rw [this] at htr2
        exact Option.noConfusion htr2

/-- C4 witness: the amended theorem applied to a concrete short position
(sell at 1.2, price 1.18, stop 1.25). -/
theorem C4_witness :
    (∀ s, (managePosition c4cfg (1/10000) c2si c4raw
        ⟨.sell, 1, 6/5, 59/50, 5/4, 0, []⟩).1 = .breakEvenMove s →
      ((PositionState.mk .sell 1 (6/5) (59/50) (5/4) 0 []).ptype = .buy →
        (PositionState.mk .sell 1 (6/5) (59/50) (5/4) 0 []).sl < s) ∧
      ((PositionState.mk .sell 1 (6/5) (59/50) (5/4) 0 []).ptype = .sell →
        s < (PositionState.mk .sell 1 (6/5) (59/50) (5/4) 0 []).sl)) ∧
    (∀ s, (managePosition c4cfg (1/10000) c2si c4raw
        ⟨.sell, 1, 6/5, 59/50, 5/4, 0, []⟩).1 = .trailingMove s →
      ((PositionState.mk .sell 1 (6/5) (59/50) (5/4) 0 []).ptype = .buy →
        (PositionState.mk .sell 1 (6/5) (59/50) (5/4) 0 []).sl < s) ∧
      ((PositionState.mk .sell 1 (6/5) (59/50) (5/4) 0 []).ptype = .sell →
        s < (PositionState.mk .sell 1 (6/5) (59/50) (5/4) 0 []).sl)) ∧
    (∀ s s', (managePosition c4cfg (1/10000) c2si c4raw
        ⟨.sell, 1, 6/5, 59/50, 5/4, 0, []⟩).1 = .breakEvenMove s →
      (managePosition c4cfg (1/10000) c2si c4raw
        (managePosition c4cfg (1/10000) c2si c4raw
          ⟨.sell, 1, 6/5, 59/50, 5/4, 0, []⟩).2).1 ≠ .breakEvenMove s') ∧
    (∀ s s', (managePosition c4cfg (1/10000) c2si c4raw
        ⟨.sell, 1, 6/5, 59/50, 5/4, 0, []⟩).1 = .trailingMove s →
      (managePosition c4cfg (1/10000) c2si c4raw
        (managePosition c4cfg (1/10000) c2si c4raw
          ⟨.sell, 1, 6/5, 59/50, 5/4, 0, []⟩).2).1 ≠ .trailingMove s') :=
  C4_stop_monotone_no_same_rule_twice c4cfg (1/10000) c2si c4raw
    ⟨.sell, 1, 6/5, 59/50, 5/4, 0, []⟩ (by norm_num [c4cfg]) (by norm_num [c4cfg])
    (by norm_num [c4cfg]) (by norm_num) (by norm_num)

/-! ## Claim C5: partial-close levels fire at most once per ticket -/

/-- C5 (code bug): the `partial_close_<level>` tags are stored on the
position dict itself, but `update_positions` rebuilds every position
dict from a fixed field list, so a gateway re-fetch between cycles wipes
the tags.  Trace: the first `manage_position` call fires the 15-pip
level and tags it; `update_positions` replaces the dict with the fresh
snapshot (no tags); the second `manage_position` call at the same profit
fires the **same** level again, closing a further 25% — contradicting
"at most once per (ticket, level) over the position's lifetime". -/
theorem C5_partial_close_refires_after_refetch :
    (managePosition c5cfg (1/10000) c2si c5raw c5p).1 = .partialClose 15 (1/4) ∧
    (managePosition c5cfg (1/10000) c2si c5raw c5p).2.consumed = [15] ∧
    (rawToState c5raw).consumed = [] ∧
    (managePosition c5cfg (1/10000) c2si c5raw (rawToState c5raw)).1 =
      .partialClose 15 (9/50) := by
  have hbe1 : breakEvenTarget c5cfg.break_even (1/10000) c5p = none := by
    norm_num [breakEvenTarget, c5cfg]
  have htr1 : trailingTarget c5cfg.trailing_stop (1/10000) c5p = none := by
    norm_num [trailingTarget, c5cfg]
  have hps1 : partialCloseScan c2si (profitPips (1/10000) c5p) c5p [(15, 25)] =
      some (15, 1/4) := by
    norm_num [partialCloseScan, partialCloseVolume, profitPips, c5p, c2si]
  have h1 : managePosition c5cfg (1/10000) c2si c5raw c5p =
      (.partialClose 15 (1/4), { rawToState c5raw with consumed := [15] }) := by
    unfold managePosition
    rw [hbe1, htr1]
    have hen : c5cfg.partial_close.enabled = true := rfl
    rw [if_pos hen]
    have : c5cfg.partial_close.levels = [(15, 25)] := rfl
    rw [this, hps1]
  have hbe2 : breakEvenTarget c5cfg.break_even (1/10000) (rawToState c5raw) = none := by
    norm_num [breakEvenTarget, c5cfg]
  have htr2 : trailingTarget c5cfg.trailing_stop (1/10000) (rawToState c5raw) = none := by
    norm_num [trailingTarget, c5cfg]
  have hps2 : partialCloseScan c2si (profitPips (1/10000) (rawToState c5raw))
      (rawToState c5raw) [(15, 25)] = some (15, 9/50) := by
    norm_num [partialCloseScan, partialCloseVolume, profitPips, rawToState, c5raw, c2si]
  refine ⟨by rw [h1], by rw [h1], rfl, ?_⟩
  unfold managePosition
  rw [hbe2, htr2]
  have hen : c5cfg.partial_close.enabled = true := rfl
  rw [if_pos hen]
  have : c5cfg.partial_close.levels = [(15, 25)] := rfl
  rw [this, hps2]

/-! ## Claim C6: no duplicate replication while a ticket is in the set -/

theorem attemptCount_append (t j : ℕ) (l1 l2 : List (ℕ × ℕ × Bool)) :
    attemptCount t j (l1 ++ l2) = attemptCount t j l1 + attemptCount t j l2 := by
  simp [attemptCount, List.filter_append]

theorem queueCount_cons (t : ℕ) (o : Order) (rest : List Order) :
    queueCount t (o :: rest) = (if o.ticket = t then 1 else 0) + queueCount t rest := by
  by_cases h : o.ticket = t
  · simp [queueCount, List.filter_cons, h]
    omega
  · simp [queueCount, List.filter_cons, h]

theorem attemptCount_singleton (tk i : ℕ) (b : Bool) (t j : ℕ) :
    attemptCount t j [(tk, i, b)] = if tk = t ∧ i = j then 1 else 0 := by
  by_cases h1 : tk = t <;> by_cases h2 : i = j <;>
    simp [attemptCount, h1, h2]

theorem attemptCount_dispatchAttempts (tk : ℕ) (execOk : ℕ → Bool) (t j : ℕ) :
    ∀ (i : ℕ) (conns : List Bool),
      attemptCount t j (dispatchAttempts tk execOk i conns) ≤ 1 ∧
      (j < i → attemptCount t j (dispatchAttempts tk execOk i conns) = 0) ∧
      (t ≠ tk → attemptCount t j (dispatchAttempts tk execOk i conns) = 0) := by
  intro i conns
  induction conns generalizing i with
  | nil => simp [dispatchAttempts, attemptCount]
  | cons c rest ih =>
      obtain ⟨ih1, ih2, ih3⟩ := ih (i + 1)
      have hsplit : dispatchAttempts tk execOk i (c :: rest) =
          (if c then [(tk, i, execOk i)] else []) ++ dispatchAttempts tk execOk (i + 1) rest :=
        rfl
      have hhead : attemptCount t j (if c then [(tk, i, execOk i)] else []) =
          if c ∧ tk = t ∧ i = j then 1 else 0 := by
        by_cases hc : c
        · rw [if_pos hc, attemptCount_singleton]
          by_cases hm : tk = t ∧ i = j
          · rw [if_pos hm, if_pos ⟨hc, hm⟩]
          · rw [if_neg hm, if_neg (fun hcon => hm ⟨hcon.2.1, hcon.2.2⟩)]
        · rw [if_neg hc, if_neg (fun hcon => hc hcon.1)]
          rfl
      rw [hsplit, attemptCount_append, hhead]
      refine ⟨?_, ?_, ?_⟩
      · by_cases hm : c ∧ tk = t ∧ i = j
        · rw [if_pos hm]
          have hz : attemptCount t j (dispatchAttempts tk execOk (i + 1) rest) = 0 :=
            ih2 (by omega)
          omega
        · rw [if_neg hm]
          omega
      · intro hj
        have hz := ih2 (by omega)
        have hni : ¬ (c ∧ tk = t ∧ i = j) := by
          rintro ⟨-, -, hij⟩
          omega
        rw [if_neg hni]
        omega
      · intro hne
        have hz := ih3 hne
        have hni : ¬ (c ∧ tk = t ∧ i = j) := by
          rintro ⟨-, hxx, -⟩
          exact hne hxx.symm
        rw [if_neg hni]
        omega

theorem monitorScan_foldl_no_t (t : ℕ) (orders : List Order) :
    ∀ (acc : List ℕ × List Order), t ∈ acc.1 → (∀ o ∈ acc.2, o.ticket ≠ t) →
      t ∈ (orders.foldl monitorScan acc).1 ∧
      ∀ o ∈ (orders.foldl monitorScan acc).2, o.ticket ≠ t := by
  induction orders with
  | nil => intro acc h1 h2; exact ⟨h1, h2⟩
  | cons o rest ih =>
      intro acc h1 h2
      simp only [List.foldl_cons]
      apply ih
      · unfold monitorScan
        split_ifs with hcond
        · simp only [List.mem_append, List.mem_singleton]
          exact Or.inl h1
        · exact h1
      · unfold monitorScan
        split_ifs with hcond
        · intro o' ho'
          simp only [List.mem_append, List.mem_singleton] at ho'
          rcases ho' with ho' | ho'
          · exact h2 o' ho'
          · subst ho'
            intro hEq
            exact hcond.2 (hEq ▸ h1)
        · exact h2

theorem monitorStep_of_processed (cfg : ReplicationConfig) (conn : Bool)
    (batch : Option (List Order)) (s : RepState) (t : ℕ) (ht : t ∈ s.processed) :
    queueCount t (monitorStep cfg conn batch s).queue = queueCount t s.queue ∧
    (monitorStep cfg conn batch s).log = s.log := by
  unfold monitorStep
  cases batch with
  | none => split_ifs <;> exact ⟨rfl, rfl⟩
  | some orders =>
      split_ifs with h1 h2
      · refine ⟨?_, rfl⟩
        have hfold := monitorScan_foldl_no_t t orders (s.processed, []) ht
          (by intro o ho; simp at ho)
        have hzero : (((orders.foldl monitorScan (s.processed, [])).2).filter
            (fun o => decide (o.ticket = t))).length = 0 := by
          simp only [List.length_eq_zero, List.filter_eq_nil_iff]
          intro o ho
          simpa using hfold.2 o ho
        show queueCount t (s.queue ++ (orders.foldl monitorScan (s.processed, [])).2) =
          queueCount t s.queue
        simp only [queueCount, List.filter_append, List.length_append]
        omega
      · exact ⟨rfl, rfl⟩
      · exact ⟨rfl, rfl⟩

theorem replicationStep_invariant (cfg : ReplicationConfig) (conns : List Bool)
    (execOk : ℕ → Bool) (s : RepState) (t j : ℕ) (C : ℕ)
    (h : attemptCount t j s.log + queueCount t s.queue ≤ C) :
    attemptCount t j (replicationStep cfg conns execOk s).log +
      queueCount t (replicationStep cfg conns execOk s).queue ≤ C := by
  obtain ⟨processed, queue, log⟩ := s
  cases queue with
  | nil => exact h
  | cons order rest =>
      dsimp only at h
      rw [queueCount_cons] at h
      unfold replicationStep
      dsimp only
      split_ifs with h1 h2
      · cases hreq : replicateOrderRequest order cfg with
        | none =>
            show attemptCount t j (log ++ []) + queueCount t rest ≤ C
            rw [List.append_nil]
            split_ifs at h <;> omega
        | some r =>
            show attemptCount t j (log ++ dispatchAttempts order.ticket execOk 0 conns) +
              queueCount t rest ≤ C
            rw [attemptCount_append]
            have h1le := (attemptCount_dispatchAttempts order.ticket execOk t j 0 conns).1
            have h0 := (attemptCount_dispatchAttempts order.ticket execOk t j 0 conns).2.2
            by_cases hot : order.ticket = t
            · rw [if_pos hot] at h
              omega
            · rw [if_neg hot] at h
              have hz := h0 (fun hc => hot hc.symm)
              omega
      · show attemptCount t j log + queueCount t rest ≤ C
        split_ifs at h <;> omega
      · show attemptCount t j log + queueCount t rest ≤ C
        split_ifs at h <;> omega

theorem runTrace_dispatch_invariant (cfg : ReplicationConfig) (t j : ℕ) :
    ∀ (steps : List RepStep) (s : RepState),
      ticketSurvives cfg t s steps = true →
      attemptCount t j s.log + queueCount t s.queue ≤ 1 →
      attemptCount t j (runTrace cfg s steps).log +
        queueCount t (runTrace cfg s steps).queue ≤ 1 := by
  intro steps
  induction steps with
  | nil => intro s _ h; exact h
  | cons st rest ih =>
      intro s hsurv h
      simp only [ticketSurvives, Bool.and_eq_true] at hsurv
      obtain ⟨hmem, hrest⟩ := hsurv
      have hmem' : t ∈ s.processed := by
        simpa using hmem
      simp only [runTrace]
      apply ih _ hrest
      cases st with
      | monitor conn batch =>
          have := monitorStep_of_processed cfg conn batch s t hmem'
          simp only [runStep, this.1, this.2]
          exact h
      | replicate conns execOk =>
          exact replicationStep_invariant cfg conns execOk s t j 1 h

/-- C6: across any interleaving of monitor-loop and replication-loop
iterations (with arbitrary gateway batches, connectivity and execution
results), a source ticket `t` that is in the processed set and is never
evicted is never enqueued again, so at most one `execute_order` dispatch
of `t` to any fixed target index `j` can ever happen: starting from a
state where `t` is processed, occurs at most once in the queue and has
not yet been dispatched to `j`, the total number of dispatches of `t` to
`j` over the whole trace stays `≤ 1`. -/
theorem C6_no_duplicate_dispatch (cfg : ReplicationConfig) (t j : ℕ)
    (s0 : RepState) (steps : List RepStep)
    (hsurv : ticketSurvives cfg t s0 steps = true)
    (hq : queueCount t s0.queue ≤ 1)
    (hl : attemptCount t j s0.log = 0) :
    attemptCount t j (runTrace cfg s0 steps).log ≤ 1 := by
  have := runTrace_dispatch_invariant cfg t j steps s0 hsurv (by omega)
  omega

/-- C6 witness: ticket 100 is already processed and queued once; a
monitor iteration re-delivering it (skipped) followed by a replication
iteration dispatching it to one connected target yields at most one
dispatch. -/
theorem C6_witness :
    ticketSurvives c6cfg 100 ⟨[100], [c6order], []⟩
      [.monitor true (some [c6order]), .replicate [true] (fun _ => true)] = true ∧
    queueCount 100 [c6order] ≤ 1 ∧
    attemptCount 100 0 ([] : List (ℕ × ℕ × Bool)) = 0 ∧
    attemptCount 100 0 (runTrace c6cfg ⟨[100], [c6order], []⟩
      [.monitor true (some [c6order]), .replicate [true] (fun _ => true)]).log ≤ 1 := by
  have h1 : ticketSurvives c6cfg 100 ⟨[100], [c6order], []⟩
      [.monitor true (some [c6order]), .replicate [true] (fun _ => true)] = true := by
    norm_num [ticketSurvives, runStep, monitorStep, monitorScan, replicationStep,
      shouldReplicateOrder, replicateOrderRequest, dispatchAttempts, c6cfg, c6order,
      defaultReplicationConfig, List.contains]
  have h2 : queueCount 100 [c6order] ≤ 1 := by
    norm_num [queueCount, c6order, List.filter]
  have h3 : attemptCount 100 0 ([] : List (ℕ × ℕ × Bool)) = 0 := rfl
  exact ⟨h1, h2, h3,
    C6_no_duplicate_dispatch c6cfg 100 0 ⟨[100], [c6order], []⟩ _ h1 h2 h3⟩

/-! ## Claim C7: per-target retry and requeue-on-failure -/

/-- C7 counterexample: with replication enabled, default filters, one
connected target whose execution **fails**, the replication loop makes
exactly one `execute_order` attempt (no retries — the configuration has
no attempt count at all) and leaves the queue empty: the failed order is
not requeued, contradicting "retried up to a configured attempt count
… requeued exactly once for the next cycle pass". -/
theorem C7_counterexample :
    (replicationStep c6cfg [true] (fun _ => false) ⟨[100], [c6order], []⟩).queue = [] ∧
    (replicationStep c6cfg [true] (fun _ => false) ⟨[100], [c6order], []⟩).log =
      [(100, 0, false)] := by
  have hen : ¬ ¬ c6cfg.enabled = true := by norm_num [c6cfg, defaultReplicationConfig]
  have hrep : shouldReplicateOrder c6order c6cfg = true := by
    norm_num [shouldReplicateOrder, c6cfg, c6order, defaultReplicationConfig]
  have hreq : (replicateOrderRequest c6order c6cfg).isSome = true := by
    norm_num [replicateOrderRequest, c6cfg, c6order, defaultReplicationConfig]
  unfold replicationStep
  dsimp only
  rw [if_neg hen, if_neg (by rw [hrep]; exact not_not_intro rfl)]
  cases hr : replicateOrderRequest c6order c6cfg with
  | none => rw [hr] at hreq; exact absurd hreq (by simp)
  | some r =>
      exact ⟨rfl, rfl⟩

/-- C7 (amended): each per-target dispatch of a dequeued order is
attempted **at most once** per queue pass (there is no retry loop and no
configured attempt count), and the dequeued order is never put back on
the queue, whatever the per-target execution results are — a failed
order is logged and dropped, not requeued. -/
theorem C7_dispatch_once_never_requeued (cfg : ReplicationConfig) (conns : List Bool)
    (execOk : ℕ → Bool) (s : RepState) (order : Order) (rest : List Order)
    (hq : s.queue = order :: rest) :
    (replicationStep cfg conns execOk s).queue = rest ∧
    ∀ t j, attemptCount t j (replicationStep cfg conns execOk s).log ≤
      attemptCount t j s.log + 1 := by
  obtain ⟨processed, queue, log⟩ := s
  dsimp only at hq
  subst hq
  unfold replicationStep
  dsimp only
  split_ifs with h1 h2
  · cases hreq : replicateOrderRequest order cfg with
    | none =>
        refine ⟨rfl, ?_⟩
        intro t j
        show attemptCount t j (log ++ []) ≤ attemptCount t j log + 1
        rw [List.append_nil]
        omega
    | some r =>
        refine ⟨rfl, ?_⟩
        intro t j
        show attemptCount t j (log ++ dispatchAttempts order.ticket execOk 0 conns) ≤
          attemptCount t j log + 1
        rw [attemptCount_append]
        have := (attemptCount_dispatchAttempts order.ticket execOk t j 0 conns).1
        omega
  · exact ⟨rfl, fun t j => by dsimp only; omega⟩
  · exact ⟨rfl, fun t j => by dsimp only; omega⟩

/-- C7 witness: the amended theorem at the counterexample's input. -/
theorem C7_witness :
    (replicationStep c6cfg [true] (fun _ => false)
      ⟨[100], [c6order], []⟩).queue = [] ∧
    ∀ t j, attemptCount t j (replicationStep c6cfg [true] (fun _ => false)
      ⟨[100], [c6order], []⟩).log ≤
        attemptCount t j ([] : List (ℕ × ℕ × Bool)) + 1 :=
  C7_dispatch_once_never_requeued c6cfg [true] (fun _ => false)
    ⟨[100], [c6order], []⟩ c6order [] rfl

/-! ## Claim C8: filter/transform examples -/

/-- C8: `_replicate_order` maps the order
`{ticket: 100, symbol: EURUSD, side: BUY, volume: 1.0, stopLoss: 1.0950,
takeProfit: 1.1100}` under `{multiplier: 0.5, reverse: false,
includeLevels: true, adjustPercent: 0}` to a BUY dispatch of volume 0.5
with untouched protective levels, and under `{multiplier: 1.0, reverse:
true, includeLevels: false}` to a SELL dispatch of volume 1.0 with the
levels stripped to 0. -/
theorem C8_transform_examples :
    replicateOrderRequest c8order c8cfg1 =
      some { action := "BUY", symbol := "EURUSD", volume := 1/2,
             sl := 219/200, tp := 111/100, comment := "REP:100:" } ∧
    replicateOrderRequest c8order c8cfg2 =
      some { action := "SELL", symbol := "EURUSD", volume := 1,
             sl := 0, tp := 0, comment := "REP:100:" } := by
  have hts : toString (100 : ℕ) = "100" := rfl
  have happ : "REP:" ++ "100" ++ ":" = "REP:100:" := rfl
  constructor <;>
    norm_num [replicateOrderRequest, c8order, c8cfg1, c8cfg2, defaultReplicationConfig,
      hts, happ]

/-! ## Claims C9/C10: shared per-source pipeline and configuration -/

theorem lookup_updateAssoc_self (k : String) (f : Replicator → Replicator)
    (l : List (String × Replicator)) :
    (updateAssoc k f l).lookup k = (l.lookup k).map f := by
  induction l with
  | nil => rfl
  | cons hd tl ih =>
      obtain ⟨k', v⟩ := hd
      by_cases h : k' = k
      · subst h
        simp [updateAssoc, List.lookup]
      · simp only [updateAssoc, if_neg h, List.lookup]
        have : (k == k') = false := by
          simp [Ne.symm h]
        rw [this]
        exact ih

theorem lookup_updateAssoc_ne (k k2 : String) (hne : k2 ≠ k)
    (f : Replicator → Replicator) (l : List (String × Replicator)) :
    (updateAssoc k f l).lookup k2 = l.lookup k2 := by
  induction l with
  | nil => rfl
  | cons hd tl ih =>
      obtain ⟨k', v⟩ := hd
      by_cases h : k' = k
      · subst h
        simp only [updateAssoc, if_pos rfl, List.lookup]
        have hb : (k2 == k') = false := by simp [hne]
        rw [hb]
      · simp only [updateAssoc, if_neg h, List.lookup]
        by_cases h2 : k2 = k'
        · subst h2
          simp
        · have hb : (k2 == k') = false := by simp [h2]
          rw [hb]
          exact ih

theorem getGroupConfig_eq (s : MultiState) (g src : String) (ts : List String)
    (r : Replicator) (hg : s.groups.lookup g = some (src, ts))
    (hr : s.replicators.lookup src = some r) :
    getGroupConfig s g = some r.config := by
  unfold getGroupConfig
  simp only [hg, hr]

/-- C10: groups with the same source account id share a single
replication configuration: after `set_group_config` on one group,
`get_group_config` on any other group with the same source returns the
patched configuration, while a group bound to a different source is
unaffected. -/
theorem C10_shared_config_per_source (s : MultiState) (g1 g2 g3 : String)
    (src src3 : String) (t1 t2 t3 : List String) (r : Replicator) (p : ConfigPatch)
    (h1 : s.groups.lookup g1 = some (src, t1))
    (h2 : s.groups.lookup g2 = some (src, t2))
    (hr : s.replicators.lookup src = some r)
    (h3 : s.groups.lookup g3 = some (src3, t3))
    (hne : src3 ≠ src) :
    (setGroupConfig s g1 p).1 = true ∧
    getGroupConfig (setGroupConfig s g1 p).2 g2 = some (applyPatch p r.config) ∧
    getGroupConfig (setGroupConfig s g1 p).2 g3 = getGroupConfig s g3 := by
  have hs1 : (setGroupConfig s g1 p).1 = true := by
    unfold setGroupConfig
    simp only [h1, hr]
  have hs2 : (setGroupConfig s g1 p).2.replicators =
      updateAssoc src (fun r => { r with config := applyPatch p r.config })
        s.replicators := by
    unfold setGroupConfig
    simp only [h1, hr]
  have hs3 : (setGroupConfig s g1 p).2.groups = s.groups := by
    unfold setGroupConfig
    simp only [h1, hr]
  refine ⟨hs1, ?_, ?_⟩
  · have hrep : (setGroupConfig s g1 p).2.replicators.lookup src =
        some { r with config := applyPatch p r.config } := by
      rw [hs2, lookup_updateAssoc_self, hr]
      rfl
    exact getGroupConfig_eq _ g2 src t2 _ (by rw [hs3]; exact h2) hrep
  · unfold getGroupConfig
    rw [hs3]
    simp only [h3]
    rw [hs2, lookup_updateAssoc_ne src src3 hne]

/-- C10 witness: the shared-config theorem at the concrete registry. -/
theorem C10_witness :
    (setGroupConfig c10state "G1" c10patch).1 = true ∧
    getGroupConfig (setGroupConfig c10state "G1" c10patch).2 "G2" =
      some (applyPatch c10patch (Replicator.mk defaultReplicationConfig false ["T1"]).config) ∧
    getGroupConfig (setGroupConfig c10state "G1" c10patch).2 "G3" =
      getGroupConfig c10state "G3" :=
  C10_shared_config_per_source c10state "G1" "G2" "G3" "S" "B" ["T1"] ["T1"] ["T3"]
    ⟨defaultReplicationConfig, false, ["T1"]⟩ c10patch rfl rfl rfl rfl (by decide)

/-- C9 (amended): `stop(group)` characterised on any registry state in
which the group and its source's replicator exist.  It succeeds; when no
other group with the same source has an enabled config, it stops the
pipeline object (`stop_replication`: `running` and `enabled` cleared);
when an enabled sibling exists it leaves `running` untouched — the
pipeline threads keep going — but flips `enabled := false` in the
**shared** config, which `get_group_config` of every sibling group
reads, so replication is disabled for the siblings too rather than
"kept running" for them. -/
theorem C9_stop_shared_pipeline (s : MultiState) (name src : String)
    (ts : List String) (r : Replicator)
    (hg : s.groups.lookup name = some (src, ts))
    (hr : s.replicators.lookup src = some r) :
    (stopReplicationGroup s name).1 = true ∧
    (isSourceActive s name src = true →
      (stopReplicationGroup s name).2.replicators.lookup src =
        some { r with config := { r.config with enabled := false } }) ∧
    (isSourceActive s name src = false →
      (stopReplicationGroup s name).2.replicators.lookup src =
        some (stopReplicatorObj r)) := by
  unfold stopReplicationGroup
  simp only [hg, hr]
  by_cases ha : isSourceActive s name src = true
  · rw [if_neg (not_not_intro ha)]
    refine ⟨rfl, ?_, ?_⟩
    · intro _
      show (updateAssoc src
          (fun r => { r with config := { r.config with enabled := false } })
          s.replicators).lookup src = _
      rw [lookup_updateAssoc_self, hr]
      rfl
    · intro hcon
      rw [ha] at hcon
      exact absurd hcon (by simp)
  · have ha' : ¬ isSourceActive s name src = true := ha
    rw [if_pos ha']
    refine ⟨rfl, ?_, ?_⟩
    · intro hcon
      exact absurd hcon ha
    · intro _
      show (updateAssoc src stopReplicatorObj s.replicators).lookup src = _
      rw [lookup_updateAssoc_self, hr]
      rfl

/-- C9 counterexample: with groups G1 and G2 sharing source S and the
shared pipeline started, `stop_replication("G1")` succeeds and leaves
the pipeline's `running` flag true as claimed — but because the config
is shared per source rather than per group, G2's visible config flips to
`enabled = false` too, and with `enabled = false` the replication loop
drops queued orders without dispatching any, so the pipeline does
**not** keep replicating for the sibling group. -/
theorem C9_counterexample :
    (getGroupConfig c9s3 "G2").map ReplicationConfig.enabled = some true ∧
    (stopReplicationGroup c9s3 "G1").1 = true ∧
    ((stopReplicationGroup c9s3 "G1").2.replicators.lookup "S").map Replicator.running =
      some true ∧
    getGroupConfig (stopReplicationGroup c9s3 "G1").2 "G2" =
      some { defaultReplicationConfig with enabled := false } ∧
    (replicationStep { defaultReplicationConfig with enabled := false } [true]
      (fun _ => true) ⟨[], [c6order], []⟩).log = [] ∧
    (replicationStep { defaultReplicationConfig with enabled := false } [true]
      (fun _ => true) ⟨[], [c6order], []⟩).queue = [] := by
  refine ⟨rfl, rfl, rfl, rfl, rfl, rfl⟩

/-- C9 witness: the amended stop characterisation at the concrete
two-group registry. -/
theorem C9_witness :
    (stopReplicationGroup c9s3 "G1").1 = true ∧
    (isSourceActive c9s3 "G1" "S" = true →
      (stopReplicationGroup c9s3 "G1").2.replicators.lookup "S" =
        some { c9rep with config := { c9rep.config with enabled := false } }) ∧
    (isSourceActive c9s3 "G1" "S" = false →
      (stopReplicationGroup c9s3 "G1").2.replicators.lookup "S" =
        some (stopReplicatorObj c9rep)) :=
  C9_stop_shared_pipeline c9s3 "G1" "S" ["T1"] c9rep rfl rfl

end ForexTap
